import Mathlib

/-!
The kademlia session message loop, result wrapper and Timer.

A shallow embedding of `src/session.cpp` (class `session::impl`), of
`src/kademlia/Timer.h` (class `detail::Timer`) and of the result wrapper
`detail::r<T>` exercised by `test/unit_tests/test_r.cpp`.

Conventions.
* Member functions become functions that take the object and return the new
  object (explicit state passing).
* Calls into collaborators whose code is outside the embedded files (sockets,
  the response dispatcher, the (de)serialisers) are recorded, in order, in a
  call log carried by the state; what they compute is taken from an
  environment record.
* A C++ `throw` is the `Except.error` result.
* `boost::asio::io_service` is driven by a script: the handlers the reactor
  has ready for each pass of the loop of `run`.
-/

namespace kademlia

/-! ## std::error_code -/

/-- The category of a `std::error_code`. -/
inductive error_category
  | system
  | generic
  | kademlia
  deriving DecidableEq, Repr

/-- A `std::error_code`: an `int` value and its category. -/
structure error_code where
  value : Int
  category : error_category
  deriving DecidableEq, Repr

/-- The default-constructed `std::error_code{}`: value 0, system category. -/
def error_code.none : error_code := ⟨0, error_category.system⟩

instance : Inhabited error_code := ⟨error_code.none⟩

/-- The `explicit operator bool` of `std::error_code`: true when the value is not 0. -/
def error_code.toBool (ec : error_code) : Bool := ec.value != 0

/-- The `make_error_code( std::errc )` overload: generic category. -/
def make_error_code_errc (errc : Int) : error_code := ⟨errc, error_category.generic⟩

/-- The `make_error_code( kademlia::error_type )` overload: kademlia category. -/
def make_error_code (error_type : Int) : error_code := ⟨error_type, error_category.kademlia⟩

/-- The value of `std::errc::address_family_not_supported` (EAFNOSUPPORT). -/
def address_family_not_supported : Int := 97

/-- The value of `std::errc::address_in_use` (EADDRINUSE). -/
def address_in_use : Int := 98

/-- A `std::system_error`: the exception carrying an `error_code`. -/
structure system_error where
  code : error_code
  deriving DecidableEq, Repr

/-! ## Messages, endpoints, tasks -/

/-- The `detail::id` type: an identifier, as the number its bits spell. -/
abbrev detail.id := Nat

/-- The `detail::buffer` type: a vector of bytes. -/
abbrev detail.buffer := List Nat

/-- Modelled from the spec: the message types of `detail::header` (message.hpp
is not part of the sources), as the wire header of the spec lists them. -/
inductive header_type
  | PING_REQUEST
  | PING_RESPONSE
  | STORE_REQUEST
  | STORE_RESPONSE
  | FIND_NODE_REQUEST
  | FIND_NODE_RESPONSE
  | FIND_VALUE_REQUEST
  | FIND_VALUE_RESPONSE
  deriving DecidableEq, Repr

/-- Modelled from the spec: `detail::header` (message.hpp is not part of the
sources): version, message type, sender identifier and request identifier,
in the order `generate_initial_request` initialises them. -/
structure detail.header where
  version_ : Nat
  type_ : header_type
  source_id_ : detail.id
  random_token_ : detail.id
  deriving DecidableEq, Repr

/-- The header version `detail::header::V1`. -/
def detail.header.V1 : Nat := 1

/-- The address family of an endpoint (`endpoint_type::protocol()`). -/
inductive protocol_type
  | v4
  | v6
  deriving DecidableEq, Repr

/-- The `detail::message_socket::endpoint_type`: protocol, address and port. -/
structure endpoint_type where
  protocol : protocol_type
  address : Nat
  port : Nat
  deriving DecidableEq, Repr

/-- The `detail::subnet` class as far as the session uses it: its local endpoint. -/
structure detail.subnet where
  local_endpoint : endpoint_type
  deriving DecidableEq, Repr

/-- Which subnet member of `session::impl` a `detail::subnet &` refers to. -/
inductive subnet_ref
  | ipv4_subnet_
  | ipv6_subnet_
  deriving DecidableEq, Repr

/-- The `detail::task_base` class as far as the session uses it: a name for the
object and the answer of `is_finished()`. -/
structure detail.task_base where
  handle : Nat
  is_finished : Bool
  deriving DecidableEq, Repr

/-- The timeout `INITIAL_CONTACT_RECEIVE_TIMEOUT`, in milliseconds. -/
def INITIAL_CONTACT_RECEIVE_TIMEOUT : Nat := 1000

/-- The calls the session makes: into its collaborators, and to its own
request handlers (whose bodies are empty in the source). -/
inductive call
  | async_receive (current_subnet : subnet_ref)
  | async_send (current_subnet : subnet_ref) (message : detail.buffer) (destination : endpoint_type)
  | associate_response_with_task_for (request_id : detail.id) (task : Nat) (timeout : Nat)
  | dispatch_message (h : detail.header) (i e : Nat)
  | handle_ping_request (source_subnet : subnet_ref) (sender : endpoint_type) (h : detail.header)
  | handle_store_request (source_subnet : subnet_ref) (sender : endpoint_type)
      (h : detail.header) (i e : Nat)
  | handle_find_node_request (source_subnet : subnet_ref) (sender : endpoint_type)
      (h : detail.header) (i e : Nat)
  | handle_find_value_request (source_subnet : subnet_ref) (sender : endpoint_type)
      (h : detail.header) (i e : Nat)
  deriving DecidableEq, Repr

/-- What `deserialize( i, e, h )` leaves behind: the error code it returns, the
advanced iterator `i` and the header `h` it filled. -/
structure deserialize_result where
  failure : error_code
  i : Nat
  h : detail.header
  deriving DecidableEq, Repr

/-- The parts of the repository that `session.cpp` uses and that are not in the
embedded sources, over a response dispatcher state `D` and a routing table
state `R`: the values of two `error_type` enumerators (error.hpp), the
(de)serialisers (message.hpp), the response dispatcher
(response_dispatcher.hpp) and the random engine that draws identifiers. -/
structure collaborators (D R : Type) where
  RUN_ABORTED : Int
  UNIMPLEMENTED : Int
  deserialize : detail.buffer → Nat → Nat → deserialize_result
  serialize_header : detail.header → detail.buffer
  serialize_find_node_request_body : detail.id → detail.buffer
  draw_id : Nat → detail.id × Nat
  dispatch_message : D × R × List detail.task_base → detail.header → detail.buffer → Nat → Nat →
    D × R × List detail.task_base
  associate_response_with_task_for : D → detail.id → Nat → Nat → D

/-- The state of `boost::asio::io_service` the loop depends on: whether
`stop()` has been called since the last `reset()`. -/
structure io_service where
  stopped : Bool
  deriving DecidableEq, Repr

/-- The data members of `session::impl`, and the log of the calls made so far. -/
structure impl (D R : Type) where
  random_engine_ : Nat
  my_id_ : detail.id
  io_service_ : io_service
  initial_peer_ : endpoint_type
  ipv4_subnet_ : detail.subnet
  ipv6_subnet_ : detail.subnet
  routing_table_ : R
  response_dispatcher_ : D
  tasks_ : List detail.task_base
  main_failure_ : error_code
  log : List call

variable {D R : Type}

/-- The subnet object a `detail::subnet &` refers to. -/
def impl.subnet (s : impl D R) : subnet_ref → detail.subnet
  | subnet_ref.ipv4_subnet_ => s.ipv4_subnet_
  | subnet_ref.ipv6_subnet_ => s.ipv6_subnet_

/-- Record one call in the log. -/
def impl.record (s : impl D R) (c : call) : impl D R :=
  { s with log := s.log ++ [c] }

/-! ## session::impl -/

/-- The method `impl::async_save`: throws `UNIMPLEMENTED`. -/
def impl.async_save (env : collaborators D R) (_key : detail.buffer) (_data : detail.buffer)
    (_handler : Nat) (_s : impl D R) : Except system_error (impl D R) :=
  Except.error ⟨make_error_code env.UNIMPLEMENTED⟩

/-- The method `impl::async_load`: throws `UNIMPLEMENTED`. -/
def impl.async_load (env : collaborators D R) (_key : detail.buffer)
    (_handler : Nat) (_s : impl D R) : Except system_error (impl D R) :=
  Except.error ⟨make_error_code env.UNIMPLEMENTED⟩

/-- The method `impl::abort`: stop the reactor, then set `main_failure_`. -/
def impl.abort (env : collaborators D R) (s : impl D R) : impl D R :=
  { s with io_service_ := ⟨true⟩, main_failure_ := make_error_code env.RUN_ABORTED }

/-- The object between the two statements of `impl::abort`: `io_service_.stop()`
has been executed, the assignment to `main_failure_` not yet. -/
def impl.abort_stopped (s : impl D R) : impl D R :=
  { s with io_service_ := ⟨true⟩ }

/-- The method `impl::handle_response`. -/
def impl.handle_response (env : collaborators D R) (h : detail.header)
    (message : detail.buffer) (i e : Nat) (s : impl D R) : impl D R :=
  let r := env.dispatch_message (s.response_dispatcher_, s.routing_table_, s.tasks_) h message i e
  { s with response_dispatcher_ := r.1, routing_table_ := r.2.1, tasks_ := r.2.2,
           log := s.log ++ [call.dispatch_message h i e] }

/-- The method `impl::handle_ping_request`: its body is empty. -/
def impl.handle_ping_request (source_subnet : subnet_ref) (sender : endpoint_type)
    (h : detail.header) (s : impl D R) : impl D R :=
  s.record (call.handle_ping_request source_subnet sender h)

/-- The method `impl::handle_store_request`: its body is empty. -/
def impl.handle_store_request (source_subnet : subnet_ref) (sender : endpoint_type)
    (h : detail.header) (i e : Nat) (s : impl D R) : impl D R :=
  s.record (call.handle_store_request source_subnet sender h i e)

/-- The method `impl::handle_find_node_request`: its body is empty. -/
def impl.handle_find_node_request (source_subnet : subnet_ref) (sender : endpoint_type)
    (h : detail.header) (i e : Nat) (s : impl D R) : impl D R :=
  s.record (call.handle_find_node_request source_subnet sender h i e)

/-- The method `impl::handle_find_value_request`: its body is empty. -/
def impl.handle_find_value_request (source_subnet : subnet_ref) (sender : endpoint_type)
    (h : detail.header) (i e : Nat) (s : impl D R) : impl D R :=
  s.record (call.handle_find_value_request source_subnet sender h i e)

/-- The method `impl::handle_new_message`: decode the header from
`[message.begin(), message.end())`; return at once when that fails, else
switch on the message type, the responses falling to `default`. -/
def impl.handle_new_message (env : collaborators D R) (source_subnet : subnet_ref)
    (sender : endpoint_type) (message : detail.buffer) (s : impl D R) : impl D R :=
  let e := message.length
  let d := env.deserialize message 0 e
  if d.failure.toBool then s
  else
    match d.h.type_ with
    | header_type.PING_REQUEST => s.handle_ping_request source_subnet sender d.h
    | header_type.STORE_REQUEST => s.handle_store_request source_subnet sender d.h d.i e
    | header_type.FIND_NODE_REQUEST => s.handle_find_node_request source_subnet sender d.h d.i e
    | header_type.FIND_VALUE_REQUEST => s.handle_find_value_request source_subnet sender d.h d.i e
    | _ => s.handle_response env d.h message d.i e

/-- The method `impl::schedule_receive_on_subnet`: one `async_receive` on the
subnet, its completion being `on_new_message`. -/
def impl.schedule_receive_on_subnet (current_subnet : subnet_ref) (s : impl D R) : impl D R :=
  s.record (call.async_receive current_subnet)

/-- The lambda `on_new_message` of `schedule_receive_on_subnet`. -/
def impl.on_new_message (env : collaborators D R) (current_subnet : subnet_ref)
    (failure : error_code) (sender : endpoint_type) (message : detail.buffer)
    (s : impl D R) : impl D R :=
  if failure.toBool then { s with main_failure_ := failure }
  else
    (s.handle_new_message env current_subnet sender message).schedule_receive_on_subnet
      current_subnet

/-- The method `impl::start_receive_on_each_subnet`. -/
def impl.start_receive_on_each_subnet (s : impl D R) : impl D R :=
  (s.schedule_receive_on_subnet subnet_ref.ipv4_subnet_).schedule_receive_on_subnet
    subnet_ref.ipv6_subnet_

/-- The method `impl::contact_initial_peer`: its body is compiled out. -/
def impl.contact_initial_peer (s : impl D R) : impl D R := s

/-- The method `impl::init`. -/
def impl.init (s : impl D R) : impl D R :=
  ({ s with io_service_ := ⟨false⟩ } : impl D R).start_receive_on_each_subnet.contact_initial_peer

/-- The method `impl::generate_initial_request`. -/
def impl.generate_initial_request (env : collaborators D R) (request_id : detail.id)
    (s : impl D R) : detail.buffer :=
  let find_node_header : detail.header :=
    ⟨detail.header.V1, header_type.FIND_NODE_REQUEST, s.my_id_, request_id⟩
  env.serialize_header find_node_header ++ env.serialize_find_node_request_body s.my_id_

/-- The method `impl::associate_response_with_task`. -/
def impl.associate_response_with_task (env : collaborators D R) (request_id : detail.id)
    (task : Nat) (s : impl D R) : impl D R :=
  { s with
    response_dispatcher_ := env.associate_response_with_task_for s.response_dispatcher_
      request_id task INITIAL_CONTACT_RECEIVE_TIMEOUT,
    log := s.log ++
      [call.associate_response_with_task_for request_id task INITIAL_CONTACT_RECEIVE_TIMEOUT] }

/-- The method `impl::send_initial_request`. On a protocol mismatch the source
builds an error code and drops it (the statement has no `return`), so both
branches of the test continue with the same code. -/
def impl.send_initial_request (env : collaborators D R) (endpoint_to_try : endpoint_type)
    (current_subnet : subnet_ref) (initial_request_task : Nat) (s : impl D R) :
    error_code × impl D R :=
  let _dropped : Option error_code :=
    if endpoint_to_try.protocol ≠ (s.subnet current_subnet).local_endpoint.protocol then
      some (make_error_code_errc address_family_not_supported)
    else Option.none
  let drawn := env.draw_id s.random_engine_
  let request_id := drawn.1
  let s1 : impl D R := { s with random_engine_ := drawn.2 }
  let message := s1.generate_initial_request env request_id
  let s2 := s1.associate_response_with_task env request_id initial_request_task
  let s3 := s2.record (call.async_send current_subnet message endpoint_to_try)
  (error_code.none, s3)

/-- The method `impl::create_new_task`: append the new task to `tasks_`. -/
def impl.create_new_task (t : detail.task_base) (s : impl D R) : impl D R :=
  { s with tasks_ := s.tasks_ ++ [t] }

/-- The method `impl::destroy_finished_tasks`: `remove_if` on `is_finished()`. -/
def impl.destroy_finished_tasks (s : impl D R) : impl D R :=
  { s with tasks_ := s.tasks_.filter (fun t => !t.is_finished) }

/-! ## The loop of `run` -/

/-- What the reactor has for the loop: the completion of an `async_receive`
(the lambda `on_new_message`, with the arguments the socket passes it), the
completion of an `async_send` (the lambda `on_message_sent`), or a call of
`session::abort()` made while the loop runs. `abort()` is called from outside
the loop thread and has two statements, so it comes in two forms: `abort`,
when both statements take effect before the loop thread goes on, and
`abort_stop`, when the loop thread goes on after `io_service_.stop()` and
reads `main_failure_` before the assignment of `abort()` is made. -/
inductive event
  | receive (current_subnet : subnet_ref) (failure : error_code) (sender : endpoint_type)
      (message : detail.buffer)
  | message_sent (failure : error_code)
  | abort
  | abort_stop
  deriving DecidableEq, Repr

/-- Whether the event is a call of `session::abort()`, in either form. -/
def event.is_abort : event → Bool
  | event.abort => true
  | event.abort_stop => true
  | _ => false

/-- Whether the event writes `main_failure_`: an abort whose assignment is made
in time, or a receive completion with a non-zero error code. -/
def event.writes_main_failure : event → Bool
  | event.receive _ failure _ _ => failure.toBool
  | event.message_sent _ => false
  | event.abort => true
  | event.abort_stop => false

/-- Run what one event stands for. The lambda `on_message_sent` has an empty body. -/
def impl.handle_event (env : collaborators D R) (ev : event) (s : impl D R) : impl D R :=
  match ev with
  | event.receive current_subnet failure sender message =>
      s.on_new_message env current_subnet failure sender message
  | event.message_sent _ => s
  | event.abort => s.abort env
  | event.abort_stop => s.abort_stopped

/-- The call `io_service_.run_one()`: wait for one handler and run it; the
result is the number of handlers run. A stopped reactor runs none; an abort
that arrives during the wait stops the reactor, which then runs none. -/
def impl.run_one (env : collaborators D R) (ev : event) (s : impl D R) : impl D R × Nat :=
  if s.io_service_.stopped then (s, 0)
  else
    match ev with
    | event.abort => (s.abort env, 0)
    | event.abort_stop => (s.abort_stopped, 0)
    | _ => (s.handle_event env ev, 1)

/-- The call `io_service_.poll()`: run the handlers that are ready, in order,
until there is none left or the reactor is stopped. -/
def impl.poll (env : collaborators D R) (ready : List event) (s : impl D R) : impl D R :=
  ready.foldl (fun s ev => if s.io_service_.stopped then s else s.handle_event env ev) s

/-- The `while` loop of `impl::run`. Each entry of the script is one pass: the
event `run_one()` gets and the events ready for `poll()`. When the script is
used up the reactor has no work left and `run_one()` returns 0. -/
def impl.run_loop (env : collaborators D R) : List (event × List event) → impl D R → impl D R
  | [], s => s
  | (ev, ready) :: rest, s =>
      if s.main_failure_.toBool then s
      else
        let r := s.run_one env ev
        if r.2 = 0 then r.1
        else impl.run_loop env rest (r.1.poll env ready).destroy_finished_tasks

/-- The method `impl::run`: the returned error code, and the object afterwards. -/
def impl.run (env : collaborators D R) (script : List (event × List event)) (s : impl D R) :
    error_code × impl D R :=
  let s1 : impl D R := { s with main_failure_ := error_code.none }
  let s2 := s1.init
  let s3 := s2.run_loop env script
  (s3.main_failure_, s3)

/-- The class `session`: it owns the `impl`. -/
structure session (D R : Type) where
  impl_ : impl D R

/-- The method `session::async_save`: forwards to the `impl`. -/
def session.async_save (env : collaborators D R) (key data : detail.buffer) (handler : Nat)
    (s : session D R) : Except system_error (session D R) :=
  (s.impl_.async_save env key data handler).map session.mk

/-- The method `session::async_load`: forwards to the `impl`. -/
def session.async_load (env : collaborators D R) (key : detail.buffer) (handler : Nat)
    (s : session D R) : Except system_error (session D R) :=
  (s.impl_.async_load env key handler).map session.mk

/-- The method `session::run`. -/
def session.run (env : collaborators D R) (script : List (event × List event))
    (s : session D R) : error_code × session D R :=
  let r := s.impl_.run env script
  (r.1, ⟨r.2⟩)

/-- The method `session::abort`. -/
def session.abort (env : collaborators D R) (s : session D R) : session D R :=
  ⟨s.impl_.abort env⟩

/-! ## The result wrapper `detail::r<T>` -/

/-- Modelled from the spec: the result wrapper `detail::r<T>` (r.hpp is not part
of the sources, only its unit tests are): a tagged union with exactly two
variants, a value or an error code. -/
inductive detail.r (T : Type)
  | value (v : T)
  | error (e : error_code)
  deriving DecidableEq, Repr

namespace detail.r

variable {T A : Type}

/-- Modelled from the spec: construction of `r<T>` from a value. -/
def of_value (v : T) : detail.r T := value v

/-- Modelled from the spec: construction of `r<T>` in place, from the arguments
of a constructor of `T`. -/
def emplace (construct : A → T) (args : A) : detail.r T := value (construct args)

/-- Modelled from the spec: construction of `r<T>` from an error code. -/
def of_error (e : error_code) : detail.r T := error e

/-- Modelled from the spec: the "has value" query, `explicit operator bool`. -/
def toBool : detail.r T → Bool
  | value _ => true
  | error _ => false

/-- Modelled from the spec: the unchecked value access `v()`, which fails loudly
(throws `exception_type`, carrying the error) if the error variant is active. -/
def v : detail.r T → Except system_error T
  | value x => Except.ok x
  | error e => Except.error ⟨e⟩

/-- Modelled from the spec: the error access `e()`; with a value it is the
default-constructed error code, as test_r.cpp requires. -/
def e : detail.r T → error_code
  | value _ => error_code.none
  | error err => err

/-- Modelled from the spec: assignment of a value to an `r<T>`. -/
def assign_value (_x : detail.r T) (v : T) : detail.r T := value v

/-- Modelled from the spec: assignment of an error code to an `r<T>`. -/
def assign_error (_x : detail.r T) (err : error_code) : detail.r T := error err

end detail.r

/-- The `test_type` of test_r.cpp. -/
structure test_type where
  a_ : Int
  b_ : Int
  deriving DecidableEq, Repr

/-! ## detail::Timer -/

/-- The `Poco::Net::SocketReactor` as the Timer uses it: the deadlines of the
scheduled completion handlers, oldest first, and the number of permanent
completion handlers. -/
structure SocketReactor where
  scheduled : List Int
  permanent : Nat
  deriving DecidableEq, Repr

/-- The call `scheduledCompletionHandlers()`. -/
def SocketReactor.scheduledCompletionHandlers (r : SocketReactor) : Nat := r.scheduled.length

/-- The class `detail::Timer` over callbacks of type `C`: the reactor it refers
to and `timeouts_`, a multimap kept as the list of its entries in iteration
order. Time points are ticks of the steady clock. -/
structure detail.Timer (C : Type) where
  _ioService : SocketReactor
  timeouts_ : List (Int × C)

namespace detail.Timer

variable {C : Type}

/-- The Timer right after construction. -/
def empty : detail.Timer C := ⟨⟨[], 0⟩, []⟩

/-- The call `timeouts_.emplace( key, callback )` of `std::multimap`: the entry
goes after every entry whose key is not greater. -/
def emplace (key : Int) (callback : C) : List (Int × C) → List (Int × C)
  | [] => [(key, callback)]
  | x :: rest => if key < x.1 then (key, callback) :: x :: rest else x :: emplace key callback rest

/-- The sum of two `int64` counts of clock ticks as the machine computes it:
modulo 2^64, in the range of `int64`. -/
def int64_add (a b : Int) : Int :=
  (a + b + 9223372036854775808) % 18446744073709551616 - 9223372036854775808

/-- Modelled from the spec: the method `schedule_next_tick` (only declared in
Timer.h; its body, in Timer.cpp, is not part of the sources): re-arms to
`expiration_time`, retiring the wake-up registration that is armed before the
new one is installed, so that one scheduled completion handler, the one for
`expiration_time`, is registered with the reactor. -/
def schedule_next_tick (expiration_time : Int) (t : detail.Timer C) : detail.Timer C :=
  { t with _ioService := { t._ioService with scheduled := [expiration_time] } }

/-- The deadline most recently armed through `schedule_next_tick`. -/
def armed (t : detail.Timer C) : Option Int := t._ioService.scheduled.getLast?

/-- The test `timeouts_.empty() || expiration_time < timeouts_.begin()->first`. -/
def sooner (expiration_time : Int) (t : detail.Timer C) : Bool :=
  match t.timeouts_ with
  | [] => true
  | x :: _ => decide (expiration_time < x.1)

/-- The method `Timer::expires_from_now`, with the reading `now` of the clock;
`clock::now() + timeout` is a sum of `int64` tick counts. -/
def expires_from_now (now timeout : Int) (on_timer_expired : C) (t : detail.Timer C) :
    detail.Timer C :=
  let expiration_time := int64_add now timeout
  let t2 : detail.Timer C :=
    if t.sooner expiration_time then
      let t1 : detail.Timer C :=
        if t._ioService.scheduledCompletionHandlers ≠ 0 then
          { t with _ioService := { t._ioService with permanent := t._ioService.permanent + 1 } }
        else t
      t1.schedule_next_tick expiration_time
    else t
  { t2 with timeouts_ := emplace expiration_time on_timer_expired t2.timeouts_ }

/-- The Timer after a sequence of `expires_from_now` calls on an empty Timer,
each call given as (clock reading, timeout, callback). -/
def after_calls (calls : List (Int × Int × C)) : detail.Timer C :=
  calls.foldl (fun t c => t.expires_from_now c.1 c.2.1 c.2.2) empty

end detail.Timer

/-! ## A concrete environment -/

/-- A sample type code table: the eight message types, numbered from 0. -/
def sample_type : Nat → Option header_type
  | 0 => some header_type.PING_REQUEST
  | 1 => some header_type.PING_RESPONSE
  | 2 => some header_type.STORE_REQUEST
  | 3 => some header_type.STORE_RESPONSE
  | 4 => some header_type.FIND_NODE_REQUEST
  | 5 => some header_type.FIND_NODE_RESPONSE
  | 6 => some header_type.FIND_VALUE_REQUEST
  | 7 => some header_type.FIND_VALUE_RESPONSE
  | _ => Option.none

/-- A header with every field zero. -/
def sample_blank_header : detail.header := ⟨0, header_type.PING_REQUEST, 0, 0⟩

/-- A sample header decoder: four bytes (version, type code, sender, request
identifier); a shorter region or an unknown type code is an error (EBADMSG). -/
def sample_deserialize (message : detail.buffer) (i _e : Nat) : deserialize_result :=
  match message.drop i with
  | version :: type :: source :: token :: _ =>
      match sample_type type with
      | some t => ⟨error_code.none, i + 4, ⟨version, t, source, token⟩⟩
      | Option.none => ⟨make_error_code_errc 74, i, sample_blank_header⟩
  | _ => ⟨make_error_code_errc 74, i, sample_blank_header⟩

/-- A sample header encoder, matching `sample_deserialize`. -/
def sample_serialize_header (h : detail.header) : detail.buffer :=
  let code : Nat :=
    match h.type_ with
    | header_type.PING_REQUEST => 0
    | header_type.PING_RESPONSE => 1
    | header_type.STORE_REQUEST => 2
    | header_type.STORE_RESPONSE => 3
    | header_type.FIND_NODE_REQUEST => 4
    | header_type.FIND_NODE_RESPONSE => 5
    | header_type.FIND_VALUE_REQUEST => 6
    | header_type.FIND_VALUE_RESPONSE => 7
  [h.version_, code, h.source_id_, h.random_token_]

/-- A sample environment. The dispatcher state is the list of pending
(request identifier, task) associations; a dispatched response removes the
associations of its request identifier and marks their tasks finished. -/
def sample_collaborators : collaborators (List (Nat × Nat)) Unit where
  RUN_ABORTED := 2
  UNIMPLEMENTED := 8
  deserialize := sample_deserialize
  serialize_header := sample_serialize_header
  serialize_find_node_request_body := fun target => [target]
  draw_id := fun seed => (seed + 7, seed + 1)
  dispatch_message := fun st h _ _ _ =>
    (st.1.filter (fun a => a.1 != h.random_token_), (),
      st.2.2.map (fun t =>
        if st.1.any (fun a => a.1 == h.random_token_ && a.2 == t.handle)
        then { t with is_finished := true } else t))
  associate_response_with_task_for := fun d request_id task _ => (request_id, task) :: d

/-- A sample session object: an IPv4 and an IPv6 subnet, one pending
association and one live task. -/
def sample_impl : impl (List (Nat × Nat)) Unit where
  random_engine_ := 5
  my_id_ := 11
  io_service_ := ⟨false⟩
  initial_peer_ := ⟨protocol_type.v4, 167772161, 27980⟩
  ipv4_subnet_ := ⟨⟨protocol_type.v4, 0, 27980⟩⟩
  ipv6_subnet_ := ⟨⟨protocol_type.v6, 0, 27980⟩⟩
  routing_table_ := ()
  response_dispatcher_ := [(9, 1)]
  tasks_ := [⟨1, false⟩]
  main_failure_ := error_code.none
  log := []

/-- A sample IPv4 peer. -/
def sample_peer : endpoint_type := ⟨protocol_type.v4, 167772162, 27980⟩

/-- The number of `dispatch_message` calls in a log. -/
def dispatch_count (log : List call) : Nat :=
  (log.filter (fun c => match c with
    | call.dispatch_message _ _ _ => true
    | _ => false)).length

/-- Whether a call in the log is a call of one of the four request handlers. -/
def call.is_request_handler : call → Bool
  | call.handle_ping_request _ _ _ => true
  | call.handle_store_request _ _ _ _ _ => true
  | call.handle_find_node_request _ _ _ _ _ => true
  | call.handle_find_value_request _ _ _ _ _ => true
  | _ => false

/-! ## Theorems -/

/-- C1: a datagram whose header fails to deserialize is dropped by
`handle_new_message`: the object is left exactly as it was (no request handler
and no `dispatch_message` call is logged; routing table, dispatcher, task list
and `main_failure_` are unchanged), and the receive completion (delivered
without a failure) then schedules one more receive on the same subnet and
changes nothing else, so the loop goes on. -/
theorem handle_new_message_drops_undecodable_header
    (env : collaborators D R) (s : impl D R) (current_subnet : subnet_ref)
    (sender : endpoint_type) (message : detail.buffer) (failure : error_code)
    (hheader : (env.deserialize message 0 message.length).failure.toBool = true)
    (hfailure : failure.toBool = false) :
    s.handle_new_message env current_subnet sender message = s ∧
    (s.on_new_message env current_subnet failure sender message).log
      = s.log ++ [call.async_receive current_subnet] ∧
    (s.on_new_message env current_subnet failure sender message).routing_table_
      = s.routing_table_ ∧
    (s.on_new_message env current_subnet failure sender message).response_dispatcher_
      = s.response_dispatcher_ ∧
    (s.on_new_message env current_subnet failure sender message).tasks_ = s.tasks_ ∧
    (s.on_new_message env current_subnet failure sender message).main_failure_
      = s.main_failure_ ∧
    (s.on_new_message env current_subnet failure sender message).io_service_
      = s.io_service_ := by
  have h1 : s.handle_new_message env current_subnet sender message = s := by
    simp [impl.handle_new_message, hheader]
  simp [impl.on_new_message, hfailure, h1, impl.schedule_receive_on_subnet, impl.record]

/-- Witness of C1: a two-byte datagram cannot hold the sample header. -/
theorem handle_new_message_drops_undecodable_header_witness :
    sample_impl.handle_new_message sample_collaborators subnet_ref.ipv4_subnet_ sample_peer
        [1, 4] = sample_impl ∧
    (sample_impl.on_new_message sample_collaborators subnet_ref.ipv4_subnet_ error_code.none
        sample_peer [1, 4]).log = sample_impl.log ++ [call.async_receive subnet_ref.ipv4_subnet_] :=
  have h := handle_new_message_drops_undecodable_header sample_collaborators sample_impl
    subnet_ref.ipv4_subnet_ sample_peer [1, 4] error_code.none (by decide) (by decide)
  ⟨h.1, h.2.1⟩

/-- C2: when the header decodes, `handle_new_message` routes by message type.
Each of the four request types makes exactly the call of its own handler and
nothing else: no `dispatch_message` call is added and the dispatcher is
unchanged. Each of the four response types makes exactly one call, of
`dispatch_message`, with the decoded header and the region `[i, e)` left after
the header, and the dispatcher, routing table and tasks are what that call
returns. -/
theorem handle_new_message_routes_by_type
    (env : collaborators D R) (s : impl D R) (current_subnet : subnet_ref)
    (sender : endpoint_type) (message : detail.buffer)
    (hheader : (env.deserialize message 0 message.length).failure.toBool = false) :
    ((env.deserialize message 0 message.length).h.type_ = header_type.PING_REQUEST →
      s.handle_new_message env current_subnet sender message
        = s.record (call.handle_ping_request current_subnet sender
            (env.deserialize message 0 message.length).h)) ∧
    ((env.deserialize message 0 message.length).h.type_ = header_type.STORE_REQUEST →
      s.handle_new_message env current_subnet sender message
        = s.record (call.handle_store_request current_subnet sender
            (env.deserialize message 0 message.length).h
            (env.deserialize message 0 message.length).i message.length)) ∧
    ((env.deserialize message 0 message.length).h.type_ = header_type.FIND_NODE_REQUEST →
      s.handle_new_message env current_subnet sender message
        = s.record (call.handle_find_node_request current_subnet sender
            (env.deserialize message 0 message.length).h
            (env.deserialize message 0 message.length).i message.length)) ∧
    ((env.deserialize message 0 message.length).h.type_ = header_type.FIND_VALUE_REQUEST →
      s.handle_new_message env current_subnet sender message
        = s.record (call.handle_find_value_request current_subnet sender
            (env.deserialize message 0 message.length).h
            (env.deserialize message 0 message.length).i message.length)) ∧
    (((env.deserialize message 0 message.length).h.type_ = header_type.PING_REQUEST ∨
      (env.deserialize message 0 message.length).h.type_ = header_type.STORE_REQUEST ∨
      (env.deserialize message 0 message.length).h.type_ = header_type.FIND_NODE_REQUEST ∨
      (env.deserialize message 0 message.length).h.type_ = header_type.FIND_VALUE_REQUEST) →
      dispatch_count (s.handle_new_message env current_subnet sender message).log
        = dispatch_count s.log ∧
      (s.handle_new_message env current_subnet sender message).response_dispatcher_
        = s.response_dispatcher_) ∧
    (((env.deserialize message 0 message.length).h.type_ = header_type.PING_RESPONSE ∨
      (env.deserialize message 0 message.length).h.type_ = header_type.STORE_RESPONSE ∨
      (env.deserialize message 0 message.length).h.type_ = header_type.FIND_NODE_RESPONSE ∨
      (env.deserialize message 0 message.length).h.type_ = header_type.FIND_VALUE_RESPONSE) →
      (s.handle_new_message env current_subnet sender message).log
        = s.log ++ [call.dispatch_message (env.deserialize message 0 message.length).h
            (env.deserialize message 0 message.length).i message.length] ∧
      dispatch_count (s.handle_new_message env current_subnet sender message).log
        = dispatch_count s.log + 1 ∧
      ((s.handle_new_message env current_subnet sender message).response_dispatcher_,
       (s.handle_new_message env current_subnet sender message).routing_table_,
       (s.handle_new_message env current_subnet sender message).tasks_)
        = env.dispatch_message (s.response_dispatcher_, s.routing_table_, s.tasks_)
            (env.deserialize message 0 message.length).h message
            (env.deserialize message 0 message.length).i message.length) := by
  refine ⟨?_, ?_, ?_, ?_, ?_, ?_⟩
  · intro ht
    simp [impl.handle_new_message, hheader, ht, impl.handle_ping_request]
  · intro ht
    simp [impl.handle_new_message, hheader, ht, impl.handle_store_request]
  · intro ht
    simp [impl.handle_new_message, hheader, ht, impl.handle_find_node_request]
  · intro ht
    simp [impl.handle_new_message, hheader, ht, impl.handle_find_value_request]
  · intro ht
    rcases ht with ht | ht | ht | ht <;>
      simp [impl.handle_new_message, hheader, ht, impl.handle_ping_request,
        impl.handle_store_request, impl.handle_find_node_request,
        impl.handle_find_value_request, impl.record, dispatch_count, List.filter_append]
  · intro ht
    rcases ht with ht | ht | ht | ht <;>
      simp [impl.handle_new_message, hheader, ht, impl.handle_response, dispatch_count,
        List.filter_append]

/-- Witness of C2: a FIND_NODE_RESPONSE for request 9 with a one-byte body is
dispatched once, with the body region `[4, 5)`, and resolves the pending task. -/
theorem handle_new_message_routes_by_type_witness :
    (sample_impl.handle_new_message sample_collaborators subnet_ref.ipv4_subnet_ sample_peer
        [1, 5, 3, 9, 42]).log
      = [call.dispatch_message ⟨1, header_type.FIND_NODE_RESPONSE, 3, 9⟩ 4 5] ∧
    (sample_impl.handle_new_message sample_collaborators subnet_ref.ipv4_subnet_ sample_peer
        [1, 5, 3, 9, 42]).tasks_ = [⟨1, true⟩] :=
  have h := (handle_new_message_routes_by_type sample_collaborators sample_impl
    subnet_ref.ipv4_subnet_ sample_peer [1, 5, 3, 9, 42] (by decide)).2.2.2.2.2
    (Or.inr (Or.inr (Or.inl (by decide))))
  ⟨h.1, congrArg (fun p => p.2.2) h.2.2⟩

/-- C3 (the code at a protocol mismatch): `send_initial_request` goes on after
the test: it returns the zero error code, having registered the response
association and called `async_send` on the subnet. -/
theorem send_initial_request_on_protocol_mismatch
    (env : collaborators D R) (s : impl D R) (endpoint_to_try : endpoint_type)
    (current_subnet : subnet_ref) (initial_request_task : Nat)
    (_hmismatch : endpoint_to_try.protocol ≠ (s.subnet current_subnet).local_endpoint.protocol) :
    (s.send_initial_request env endpoint_to_try current_subnet initial_request_task).1.toBool
      = false ∧
    (s.send_initial_request env endpoint_to_try current_subnet initial_request_task).2.log
      = s.log ++
        [call.associate_response_with_task_for (env.draw_id s.random_engine_).1
           initial_request_task INITIAL_CONTACT_RECEIVE_TIMEOUT,
         call.async_send current_subnet
           (env.serialize_header ⟨detail.header.V1, header_type.FIND_NODE_REQUEST, s.my_id_,
              (env.draw_id s.random_engine_).1⟩
            ++ env.serialize_find_node_request_body s.my_id_) endpoint_to_try] ∧
    (s.send_initial_request env endpoint_to_try current_subnet
        initial_request_task).2.response_dispatcher_
      = env.associate_response_with_task_for s.response_dispatcher_
          (env.draw_id s.random_engine_).1 initial_request_task
          INITIAL_CONTACT_RECEIVE_TIMEOUT := by
  simp [impl.send_initial_request, impl.associate_response_with_task, impl.record,
    impl.generate_initial_request, error_code.toBool, error_code.none]

/-- Witness of C3: an IPv4 peer tried on the IPv6 subnet. -/
theorem send_initial_request_on_protocol_mismatch_witness :
    (sample_impl.send_initial_request sample_collaborators sample_peer subnet_ref.ipv6_subnet_
        1).1.toBool = false ∧
    (sample_impl.send_initial_request sample_collaborators sample_peer subnet_ref.ipv6_subnet_
        1).2.log
      = [call.associate_response_with_task_for 12 1 1000,
         call.async_send subnet_ref.ipv6_subnet_ [1, 4, 11, 12, 11] sample_peer] :=
  have h := send_initial_request_on_protocol_mismatch sample_collaborators sample_impl
    sample_peer subnet_ref.ipv6_subnet_ 1 (by decide)
  ⟨h.1, h.2.1⟩


/-! ### Lemmas on the loop -/

theorem handle_new_message_keeps_loop_state (env : collaborators D R) (s : impl D R)
    (current_subnet : subnet_ref) (sender : endpoint_type) (message : detail.buffer) :
    (s.handle_new_message env current_subnet sender message).main_failure_ = s.main_failure_ ∧
    (s.handle_new_message env current_subnet sender message).io_service_ = s.io_service_ := by
  unfold impl.handle_new_message
  simp only
  split
  · exact ⟨rfl, rfl⟩
  · split <;> simp [impl.handle_ping_request, impl.handle_store_request,
      impl.handle_find_node_request, impl.handle_find_value_request, impl.handle_response,
      impl.record]

theorem handle_event_keeps_io_service (env : collaborators D R) (s : impl D R) (ev : event)
    (hev : ev.is_abort = false) : (s.handle_event env ev).io_service_ = s.io_service_ := by
  cases ev with
  | receive current_subnet failure sender message =>
      simp only [impl.handle_event, impl.on_new_message]
      split
      · rfl
      · simp [impl.schedule_receive_on_subnet, impl.record,
          (handle_new_message_keeps_loop_state env s current_subnet sender message).2]
  | message_sent failure => rfl
  | abort => simp [event.is_abort] at hev
  | abort_stop => simp [event.is_abort] at hev

theorem handle_event_keeps_main_failure (env : collaborators D R) (s : impl D R) (ev : event)
    (hev : ev.writes_main_failure = false) :
    (s.handle_event env ev).main_failure_ = s.main_failure_ := by
  cases ev with
  | receive current_subnet failure sender message =>
      simp only [event.writes_main_failure] at hev
      simp [impl.handle_event, impl.on_new_message, hev, impl.schedule_receive_on_subnet,
        impl.record, (handle_new_message_keeps_loop_state env s current_subnet sender message).1]
  | message_sent failure => rfl
  | abort => simp [event.writes_main_failure] at hev
  | abort_stop => rfl

theorem poll_append (env : collaborators D R) (s : impl D R) (a b : List event) :
    s.poll env (a ++ b) = (s.poll env a).poll env b := by
  simp [impl.poll, List.foldl_append]

theorem poll_stopped (env : collaborators D R) (ready : List event) (s : impl D R)
    (hs : s.io_service_.stopped = true) : s.poll env ready = s := by
  induction ready with
  | nil => rfl
  | cons ev rest ih =>
      simp only [impl.poll, List.foldl_cons, hs, if_true]
      exact ih

theorem poll_cons_running (env : collaborators D R) (ev : event) (ready : List event)
    (s : impl D R) (hs : s.io_service_.stopped = false) :
    s.poll env (ev :: ready) = (s.handle_event env ev).poll env ready := by
  simp [impl.poll, hs]

theorem poll_without_abort (env : collaborators D R) (ready : List event) (s : impl D R)
    (hready : ∀ x ∈ ready, x.is_abort = false) :
    (s.poll env ready).io_service_ = s.io_service_ := by
  induction ready generalizing s with
  | nil => rfl
  | cons ev rest ih =>
      cases hs : s.io_service_.stopped with
      | true => rw [poll_stopped env _ s hs]
      | false =>
          rw [poll_cons_running env ev rest s hs,
            ih _ (fun x hx => hready x (List.mem_cons_of_mem _ hx)),
            handle_event_keeps_io_service env s ev (hready ev (List.mem_cons_self _ _))]

theorem poll_without_write (env : collaborators D R) (ready : List event) (s : impl D R)
    (hready : ∀ x ∈ ready, x.writes_main_failure = false) :
    (s.poll env ready).main_failure_ = s.main_failure_ := by
  induction ready generalizing s with
  | nil => rfl
  | cons ev rest ih =>
      cases hs : s.io_service_.stopped with
      | true => rw [poll_stopped env _ s hs]
      | false =>
          rw [poll_cons_running env ev rest s hs,
            ih _ (fun x hx => hready x (List.mem_cons_of_mem _ hx)),
            handle_event_keeps_main_failure env s ev (hready ev (List.mem_cons_self _ _))]

theorem run_loop_failed (env : collaborators D R) (script : List (event × List event))
    (s : impl D R) (hs : s.main_failure_.toBool = true) : s.run_loop env script = s := by
  cases script with
  | nil => rfl
  | cons p rest => simp [impl.run_loop, hs]

theorem run_loop_stopped (env : collaborators D R) (script : List (event × List event))
    (s : impl D R) (hs : s.io_service_.stopped = true) : s.run_loop env script = s := by
  cases script with
  | nil => rfl
  | cons p rest => simp [impl.run_loop, impl.run_one, hs]

theorem run_loop_pass (env : collaborators D R) (ev : event) (ready : List event)
    (rest : List (event × List event)) (s : impl D R)
    (hfail : s.main_failure_.toBool = false) (hstop : s.io_service_.stopped = false)
    (hev : ev.is_abort = false) :
    s.run_loop env ((ev, ready) :: rest)
      = (s.poll env (ev :: ready)).destroy_finished_tasks.run_loop env rest := by
  rw [poll_cons_running env ev ready s hstop]
  cases ev with
  | abort => simp [event.is_abort] at hev
  | abort_stop => simp [event.is_abort] at hev
  | receive a b c d => simp [impl.run_loop, impl.run_one, hfail, hstop]
  | message_sent f => simp [impl.run_loop, impl.run_one, hfail, hstop]

theorem run_loop_abort_first (env : collaborators D R) (ready : List event)
    (rest : List (event × List event)) (s : impl D R)
    (hfail : s.main_failure_.toBool = false) (hstop : s.io_service_.stopped = false) :
    s.run_loop env ((event.abort, ready) :: rest) = s.abort env := by
  simp [impl.run_loop, impl.run_one, hfail, hstop]

theorem run_loop_abort_stop_first (env : collaborators D R) (ready : List event)
    (rest : List (event × List event)) (s : impl D R)
    (hfail : s.main_failure_.toBool = false) (hstop : s.io_service_.stopped = false) :
    s.run_loop env ((event.abort_stop, ready) :: rest) = s.abort_stopped := by
  simp [impl.run_loop, impl.run_one, hfail, hstop]

theorem run_loop_append (env : collaborators D R) (pre tail : List (event × List event))
    (s : impl D R)
    (hfail : (s.run_loop env pre).main_failure_.toBool = false)
    (hstop : (s.run_loop env pre).io_service_.stopped = false) :
    s.run_loop env (pre ++ tail) = (s.run_loop env pre).run_loop env tail := by
  induction pre generalizing s with
  | nil => rfl
  | cons p pre ih =>
      obtain ⟨ev, ready⟩ := p
      cases hf : s.main_failure_.toBool with
      | true =>
          rw [run_loop_failed env _ s hf] at hfail
          rw [hf] at hfail
          cases hfail
      | false =>
          cases hs : s.io_service_.stopped with
          | true =>
              rw [run_loop_stopped env _ s hs] at hstop
              rw [hs] at hstop
              cases hstop
          | false =>
              cases hev : ev.is_abort with
              | true =>
                  cases ev with
                  | abort =>
                      rw [run_loop_abort_first env ready pre s hf hs] at hstop
                      simp [impl.abort] at hstop
                  | abort_stop =>
                      rw [run_loop_abort_stop_first env ready pre s hf hs] at hstop
                      simp [impl.abort_stopped] at hstop
                  | receive a b c d => simp [event.is_abort] at hev
                  | message_sent f => simp [event.is_abort] at hev
              | false =>
                  rw [run_loop_pass env ev ready pre s hf hs hev] at hfail hstop
                  rw [List.cons_append, run_loop_pass env ev ready (pre ++ tail) s hf hs hev,
                    run_loop_pass env ev ready pre s hf hs hev]
                  exact ih _ hfail hstop

theorem pass_with_failing_receive (env : collaborators D R) (s : impl D R) (ev : event)
    (ready before after : List event) (current_subnet : subnet_ref) (f : error_code)
    (sender : endpoint_type) (message : detail.buffer)
    (hf : f.toBool = true)
    (hfail : s.main_failure_.toBool = false) (hstop : s.io_service_.stopped = false)
    (hsplit : ev :: ready = before ++ event.receive current_subnet f sender message :: after)
    (hbefore : ∀ x ∈ before, x.is_abort = false)
    (hafter : ∀ x ∈ after, x.writes_main_failure = false) :
    ∃ t : impl D R, t.main_failure_ = f ∧
      ∀ rest, s.run_loop env ((ev, ready) :: rest) = t := by
  have hev : ev.is_abort = false := by
    cases before with
    | nil =>
        simp only [List.nil_append, List.cons.injEq] at hsplit
        rw [hsplit.1]; rfl
    | cons b bs =>
        simp only [List.cons_append, List.cons.injEq] at hsplit
        rw [hsplit.1]; exact hbefore b (List.mem_cons_self _ _)
  have hb : (s.poll env before).io_service_.stopped = false := by
    rw [poll_without_abort env before s hbefore]; exact hstop
  have hm : (s.poll env (ev :: ready)).main_failure_ = f := by
    rw [hsplit, poll_append, poll_cons_running env _ after _ hb,
      poll_without_write env after _ hafter]
    simp [impl.handle_event, impl.on_new_message, hf]
  refine ⟨(s.poll env (ev :: ready)).destroy_finished_tasks, ?_, ?_⟩
  · simpa [impl.destroy_finished_tasks] using hm
  · intro rest
    rw [run_loop_pass env ev ready rest s hfail hstop hev]
    apply run_loop_failed
    have : (s.poll env (ev :: ready)).destroy_finished_tasks.main_failure_ = f := by
      simpa [impl.destroy_finished_tasks] using hm
    rw [this]; exact hf

theorem pass_with_abort (env : collaborators D R) (s : impl D R) (ev : event)
    (ready before after : List event)
    (hfail : s.main_failure_.toBool = false) (hstop : s.io_service_.stopped = false)
    (hsplit : ev :: ready = before ++ event.abort :: after)
    (hbefore : ∀ x ∈ before, x.is_abort = false) :
    ∃ t : impl D R, t.main_failure_ = make_error_code env.RUN_ABORTED ∧
      ∀ rest, s.run_loop env ((ev, ready) :: rest) = t := by
  cases before with
  | nil =>
      simp only [List.nil_append, List.cons.injEq] at hsplit
      refine ⟨s.abort env, rfl, ?_⟩
      intro rest
      rw [hsplit.1]
      exact run_loop_abort_first env ready rest s hfail hstop
  | cons b bs =>
      have hev : ev.is_abort = false := by
        simp only [List.cons_append, List.cons.injEq] at hsplit
        rw [hsplit.1]; exact hbefore b (List.mem_cons_self _ _)
      have hb : (s.poll env (b :: bs)).io_service_.stopped = false := by
        rw [poll_without_abort env (b :: bs) s hbefore]; exact hstop
      have hp : s.poll env (ev :: ready) = (s.poll env (b :: bs)).abort env := by
        rw [hsplit, poll_append, poll_cons_running env _ after _ hb]
        exact poll_stopped env after _ rfl
      refine ⟨(s.poll env (ev :: ready)).destroy_finished_tasks, ?_, ?_⟩
      · rw [hp]; rfl
      · intro rest
        rw [run_loop_pass env ev ready rest s hfail hstop hev]
        apply run_loop_stopped
        rw [hp]; rfl

/-- C4: a receive completion delivered with a non-zero error code `f` while
`run()` is looping only stores `f` in `main_failure_` (the message handler is
not called and no receive is scheduled: the log is unchanged). If that
completion is delivered in a pass of the loop that `run()` reaches still
running, and no abort and no failing receive completion follows it in that
pass, then `run()` returns exactly `f`, and what the reactor has for later
passes is never run. -/
theorem run_returns_receive_failure
    (env : collaborators D R) (s0 : impl D R) (pre rest : List (event × List event))
    (ev : event) (ready before after : List event) (current_subnet : subnet_ref)
    (f : error_code) (sender : endpoint_type) (message : detail.buffer)
    (hf : f.toBool = true)
    (hfail : (s0.run env pre).1.toBool = false)
    (hstop : (s0.run env pre).2.io_service_.stopped = false)
    (hsplit : ev :: ready = before ++ event.receive current_subnet f sender message :: after)
    (hbefore : ∀ x ∈ before, x.is_abort = false)
    (hafter : ∀ x ∈ after, x.writes_main_failure = false) :
    (∀ s : impl D R, s.on_new_message env current_subnet f sender message
        = { s with main_failure_ := f }) ∧
    (s0.run env (pre ++ (ev, ready) :: rest)).1 = f ∧
    s0.run env (pre ++ (ev, ready) :: rest) = s0.run env (pre ++ [(ev, ready)]) := by
  simp only [impl.run] at hfail hstop
  obtain ⟨t, ht, hrun⟩ := pass_with_failing_receive env _ ev ready before after current_subnet
    f sender message hf hfail hstop hsplit hbefore hafter
  refine ⟨?_, ?_, ?_⟩
  · intro s
    simp [impl.on_new_message, hf]
  · simp only [impl.run]
    rw [run_loop_append env pre _ _ hfail hstop, hrun rest]
    exact ht
  · simp only [impl.run]
    rw [run_loop_append env pre _ _ hfail hstop, run_loop_append env pre _ _ hfail hstop,
      hrun rest, hrun []]

/-- Witness of C4: after one ordinary pass, the IPv6 receive fails with
ECONNRESET between a send completion and a good datagram; a further pass is
in the script. -/
theorem run_returns_receive_failure_witness :
    (sample_impl.run sample_collaborators
      ([(event.receive subnet_ref.ipv4_subnet_ error_code.none sample_peer [1, 0, 3, 9],
          [event.message_sent error_code.none])] ++
        (event.message_sent error_code.none,
          [event.receive subnet_ref.ipv6_subnet_ (make_error_code_errc 104) sample_peer [],
           event.receive subnet_ref.ipv4_subnet_ error_code.none sample_peer [1, 1, 3, 9]]) ::
        [(event.receive subnet_ref.ipv4_subnet_ error_code.none sample_peer [1, 0, 3, 9],
          [])])).1 = make_error_code_errc 104 :=
  (run_returns_receive_failure sample_collaborators sample_impl
    [(event.receive subnet_ref.ipv4_subnet_ error_code.none sample_peer [1, 0, 3, 9],
      [event.message_sent error_code.none])]
    [(event.receive subnet_ref.ipv4_subnet_ error_code.none sample_peer [1, 0, 3, 9], [])]
    (event.message_sent error_code.none)
    [event.receive subnet_ref.ipv6_subnet_ (make_error_code_errc 104) sample_peer [],
     event.receive subnet_ref.ipv4_subnet_ error_code.none sample_peer [1, 1, 3, 9]]
    [event.message_sent error_code.none]
    [event.receive subnet_ref.ipv4_subnet_ error_code.none sample_peer [1, 1, 3, 9]]
    subnet_ref.ipv6_subnet_ (make_error_code_errc 104) sample_peer []
    (by decide) (by decide) (by decide) rfl (by decide) (by decide)).2.1

/-- When `abort()` is called in a pass of the loop that `run()` reaches still
running, and both its statements take effect before the loop thread goes on,
the loop ends in that pass (what the reactor has for later passes is never
run) and `run()` returns the error code of `RUN_ABORTED`, which is non-zero
when the enumerator `RUN_ABORTED` is. -/
theorem run_returns_RUN_ABORTED_after_abort
    (env : collaborators D R) (s0 : impl D R) (pre rest : List (event × List event))
    (ev : event) (ready before after : List event)
    (hfail : (s0.run env pre).1.toBool = false)
    (hstop : (s0.run env pre).2.io_service_.stopped = false)
    (hsplit : ev :: ready = before ++ event.abort :: after)
    (hbefore : ∀ x ∈ before, x.is_abort = false) :
    (s0.run env (pre ++ (ev, ready) :: rest)).1 = make_error_code env.RUN_ABORTED ∧
    s0.run env (pre ++ (ev, ready) :: rest) = s0.run env (pre ++ [(ev, ready)]) ∧
    (env.RUN_ABORTED ≠ 0 → (s0.run env (pre ++ (ev, ready) :: rest)).1.toBool = true) := by
  simp only [impl.run] at hfail hstop
  obtain ⟨t, ht, hrun⟩ := pass_with_abort env _ ev ready before after hfail hstop hsplit hbefore
  have h1 : (s0.run env (pre ++ (ev, ready) :: rest)).1 = make_error_code env.RUN_ABORTED := by
    simp only [impl.run]
    rw [run_loop_append env pre _ _ hfail hstop, hrun rest]
    exact ht
  refine ⟨h1, ?_, ?_⟩
  · simp only [impl.run]
    rw [run_loop_append env pre _ _ hfail hstop, run_loop_append env pre _ _ hfail hstop,
      hrun rest, hrun []]
  · intro hne
    rw [h1]
    simpa [error_code.toBool, make_error_code] using hne

/-- An instance: after one ordinary pass, `abort()` is called, and takes effect
whole, while a good datagram is being handled; more datagrams are ready and a
further pass is in the script. -/
theorem run_returns_RUN_ABORTED_after_abort_witness :
    (sample_impl.run sample_collaborators
      ([(event.receive subnet_ref.ipv4_subnet_ error_code.none sample_peer [1, 0, 3, 9],
          [event.message_sent error_code.none])] ++
        (event.receive subnet_ref.ipv4_subnet_ error_code.none sample_peer [1, 0, 3, 9],
          [event.abort,
           event.receive subnet_ref.ipv6_subnet_ (make_error_code_errc 104) sample_peer []]) ::
        [(event.receive subnet_ref.ipv4_subnet_ error_code.none sample_peer [1, 0, 3, 9],
          [])])).1 = make_error_code 2 ∧
    (sample_impl.run sample_collaborators
      ([(event.receive subnet_ref.ipv4_subnet_ error_code.none sample_peer [1, 0, 3, 9],
          [event.message_sent error_code.none])] ++
        (event.receive subnet_ref.ipv4_subnet_ error_code.none sample_peer [1, 0, 3, 9],
          [event.abort,
           event.receive subnet_ref.ipv6_subnet_ (make_error_code_errc 104) sample_peer []]) ::
        [(event.receive subnet_ref.ipv4_subnet_ error_code.none sample_peer [1, 0, 3, 9],
          [])])).1.toBool = true :=
  have h := run_returns_RUN_ABORTED_after_abort sample_collaborators sample_impl
    [(event.receive subnet_ref.ipv4_subnet_ error_code.none sample_peer [1, 0, 3, 9],
      [event.message_sent error_code.none])]
    [(event.receive subnet_ref.ipv4_subnet_ error_code.none sample_peer [1, 0, 3, 9], [])]
    (event.receive subnet_ref.ipv4_subnet_ error_code.none sample_peer [1, 0, 3, 9])
    [event.abort,
     event.receive subnet_ref.ipv6_subnet_ (make_error_code_errc 104) sample_peer []]
    [event.receive subnet_ref.ipv4_subnet_ error_code.none sample_peer [1, 0, 3, 9]]
    [event.receive subnet_ref.ipv6_subnet_ (make_error_code_errc 104) sample_peer []]
    (by decide) (by decide) rfl (by decide)
  ⟨h.1, h.2.2 (by decide)⟩

theorem pass_with_abort_stop (env : collaborators D R) (s : impl D R) (ev : event)
    (ready before after : List event)
    (hfail : s.main_failure_.toBool = false) (hstop : s.io_service_.stopped = false)
    (hsplit : ev :: ready = before ++ event.abort_stop :: after)
    (hbefore : ∀ x ∈ before, x.is_abort = false ∧ x.writes_main_failure = false) :
    ∃ t : impl D R, t.main_failure_ = s.main_failure_ ∧
      ∀ rest, s.run_loop env ((ev, ready) :: rest) = t := by
  cases before with
  | nil =>
      simp only [List.nil_append, List.cons.injEq] at hsplit
      refine ⟨s.abort_stopped, rfl, ?_⟩
      intro rest
      rw [hsplit.1]
      exact run_loop_abort_stop_first env ready rest s hfail hstop
  | cons b bs =>
      have hev : ev.is_abort = false := by
        simp only [List.cons_append, List.cons.injEq] at hsplit
        rw [hsplit.1]; exact (hbefore b (List.mem_cons_self _ _)).1
      have hb : (s.poll env (b :: bs)).io_service_.stopped = false := by
        rw [poll_without_abort env (b :: bs) s (fun x hx => (hbefore x hx).1)]; exact hstop
      have hm : (s.poll env (b :: bs)).main_failure_ = s.main_failure_ :=
        poll_without_write env (b :: bs) s (fun x hx => (hbefore x hx).2)
      have hp : s.poll env (ev :: ready) = (s.poll env (b :: bs)).abort_stopped := by
        rw [hsplit, poll_append, poll_cons_running env _ after _ hb]
        exact poll_stopped env after _ rfl
      refine ⟨(s.poll env (ev :: ready)).destroy_finished_tasks, ?_, ?_⟩
      · rw [hp]; exact hm
      · intro rest
        rw [run_loop_pass env ev ready rest s hfail hstop hev]
        apply run_loop_stopped
        rw [hp]; rfl

/-- C5 (the code when the loop thread goes on between the two statements of
`abort()`): `abort()` is `io_service_.stop()` followed by the assignment of
`RUN_ABORTED` to `main_failure_`. If, in a pass that `run()` reaches still
running and in which nothing has written `main_failure_`, the loop thread
goes on after the `stop()` and before the assignment, the loop ends in that
pass but `run()` returns the `main_failure_` it had, a zero error code, and
not `RUN_ABORTED`. -/
theorem run_returns_zero_when_abort_assigns_late
    (env : collaborators D R) (s0 : impl D R) (pre rest : List (event × List event))
    (ev : event) (ready before after : List event)
    (hfail : (s0.run env pre).1.toBool = false)
    (hstop : (s0.run env pre).2.io_service_.stopped = false)
    (hsplit : ev :: ready = before ++ event.abort_stop :: after)
    (hbefore : ∀ x ∈ before, x.is_abort = false ∧ x.writes_main_failure = false) :
    (∀ s : impl D R, s.abort env
        = { s.abort_stopped with main_failure_ := make_error_code env.RUN_ABORTED }) ∧
    (s0.run env (pre ++ (ev, ready) :: rest)).1 = (s0.run env pre).1 ∧
    (s0.run env (pre ++ (ev, ready) :: rest)).1.toBool = false ∧
    (env.RUN_ABORTED ≠ 0 →
      (s0.run env (pre ++ (ev, ready) :: rest)).1 ≠ make_error_code env.RUN_ABORTED) ∧
    s0.run env (pre ++ (ev, ready) :: rest) = s0.run env (pre ++ [(ev, ready)]) := by
  have hfail0 := hfail
  simp only [impl.run] at hfail hstop
  obtain ⟨t, ht, hrun⟩ := pass_with_abort_stop env _ ev ready before after hfail hstop hsplit
    hbefore
  have h1 : (s0.run env (pre ++ (ev, ready) :: rest)).1 = (s0.run env pre).1 := by
    simp only [impl.run]
    rw [run_loop_append env pre _ _ hfail hstop, hrun rest]
    exact ht
  refine ⟨fun s => rfl, h1, ?_, ?_, ?_⟩
  · rw [h1]; exact hfail0
  · intro hne heq
    have h2 : (s0.run env (pre ++ (ev, ready) :: rest)).1.toBool = false := by
      rw [h1]; exact hfail0
    rw [heq] at h2
    simp [error_code.toBool, make_error_code, hne] at h2
  · simp only [impl.run]
    rw [run_loop_append env pre _ _ hfail hstop, run_loop_append env pre _ _ hfail hstop,
      hrun rest, hrun []]

/-- Witness of C5: after one ordinary pass `abort()` is called while
`run_one()` waits, and the loop thread returns before the assignment of
`abort()`: `run()` returns the zero error code, where `RUN_ABORTED` is 2. -/
theorem run_returns_zero_when_abort_assigns_late_witness :
    (sample_impl.run sample_collaborators
      ([(event.receive subnet_ref.ipv4_subnet_ error_code.none sample_peer [1, 0, 3, 9],
          [event.message_sent error_code.none])] ++
        (event.abort_stop, []) ::
        [(event.receive subnet_ref.ipv4_subnet_ error_code.none sample_peer [1, 0, 3, 9],
          [])])).1 = error_code.none ∧
    (sample_impl.run sample_collaborators
      ([(event.receive subnet_ref.ipv4_subnet_ error_code.none sample_peer [1, 0, 3, 9],
          [event.message_sent error_code.none])] ++
        (event.abort_stop, []) ::
        [(event.receive subnet_ref.ipv4_subnet_ error_code.none sample_peer [1, 0, 3, 9],
          [])])).1 ≠ make_error_code sample_collaborators.RUN_ABORTED :=
  have h := run_returns_zero_when_abort_assigns_late sample_collaborators sample_impl
    [(event.receive subnet_ref.ipv4_subnet_ error_code.none sample_peer [1, 0, 3, 9],
      [event.message_sent error_code.none])]
    [(event.receive subnet_ref.ipv4_subnet_ error_code.none sample_peer [1, 0, 3, 9], [])]
    event.abort_stop [] [] []
    (by decide) (by decide) rfl (by decide)
  ⟨h.2.1.trans (by decide), h.2.2.2.1 (by decide)⟩

/-- C6 (counterexample): on the sample session neither `async_save` nor
`async_load` returns normally with one more task in `tasks_`. -/
theorem async_save_async_load_add_task_counterexample :
    (¬ ∃ s' : session (List (Nat × Nat)) Unit,
        (session.mk sample_impl).async_save sample_collaborators [1] [2] 0 = Except.ok s' ∧
        s'.impl_.tasks_.length = sample_impl.tasks_.length + 1) ∧
    (¬ ∃ s' : session (List (Nat × Nat)) Unit,
        (session.mk sample_impl).async_load sample_collaborators [1] 0 = Except.ok s' ∧
        s'.impl_.tasks_.length = sample_impl.tasks_.length + 1) := by
  constructor
  · rintro ⟨s', h, -⟩
    simp [session.async_save, impl.async_save, Except.map] at h
  · rintro ⟨s', h, -⟩
    simp [session.async_load, impl.async_load, Except.map] at h

/-- C6 (amended): for every key, data and handler, `async_save` and
`async_load` (of `session`, and of `session::impl` to which they forward)
throw `std::system_error` with the error code of `UNIMPLEMENTED`; no new
object, hence no new task, results. -/
theorem async_save_async_load_throw_UNIMPLEMENTED
    (env : collaborators D R) (s : session D R) (key data : detail.buffer) (handler : Nat) :
    s.async_save env key data handler = Except.error ⟨make_error_code env.UNIMPLEMENTED⟩ ∧
    s.async_load env key handler = Except.error ⟨make_error_code env.UNIMPLEMENTED⟩ ∧
    s.impl_.async_save env key data handler
      = Except.error ⟨make_error_code env.UNIMPLEMENTED⟩ ∧
    s.impl_.async_load env key handler
      = Except.error ⟨make_error_code env.UNIMPLEMENTED⟩ :=
  ⟨rfl, rfl, rfl, rfl⟩

/-- C7: an `r<T>` constructed from a value `v`, given directly or built in
place from constructor arguments, has a value, `v()` returns that value and
`e()` is the default-constructed error code. -/
theorem r_constructed_from_value {T A : Type} (v : T) (construct : A → T) (args : A) :
    (detail.r.of_value v).toBool = true ∧
    (detail.r.of_value v).v = Except.ok v ∧
    (detail.r.of_value v).e = error_code.none ∧
    (detail.r.emplace construct args).toBool = true ∧
    (detail.r.emplace construct args).v = Except.ok (construct args) ∧
    (detail.r.emplace construct args).e = error_code.none :=
  ⟨rfl, rfl, rfl, rfl, rfl, rfl⟩

/-- C8: an `r<T>` constructed from a non-zero error code `err` has no value,
`e()` returns `err`, and `v()` throws the exception (carrying `err`) instead of
returning a value. -/
theorem r_constructed_from_error {T : Type} (err : error_code) (_herr : err.toBool = true) :
    (detail.r.of_error err : detail.r T).toBool = false ∧
    (detail.r.of_error err : detail.r T).e = err ∧
    (detail.r.of_error err : detail.r T).v = Except.error ⟨err⟩ ∧
    ∀ x : T, (detail.r.of_error err : detail.r T).v ≠ Except.ok x := by
  refine ⟨rfl, rfl, rfl, ?_⟩
  intro x h
  simp [detail.r.of_error, detail.r.v] at h

/-- Witness of C8: the `address_in_use` error of test_r.cpp. -/
theorem r_constructed_from_error_witness :
    (detail.r.of_error (make_error_code_errc address_in_use) : detail.r Int).toBool = false ∧
    (detail.r.of_error (make_error_code_errc address_in_use) : detail.r Int).e
      = make_error_code_errc address_in_use :=
  have h := r_constructed_from_error (T := Int) (make_error_code_errc address_in_use)
    (by decide)
  ⟨h.1, h.2.1⟩

/-- C9: assignment to an `r<T>` in either state replaces the state: after the
assignment of a value `v` it has a value and `v()` returns `v`; after the
assignment of a non-zero error code `err` it has no value and `e()` returns
`err`. -/
theorem r_assignment_replaces_state {T : Type} (x : detail.r T) (v : T) (err : error_code)
    (_herr : err.toBool = true) :
    (x.assign_value v).toBool = true ∧
    (x.assign_value v).v = Except.ok v ∧
    (x.assign_error err).toBool = false ∧
    (x.assign_error err).e = err := by
  cases x <;> exact ⟨rfl, rfl, rfl, rfl⟩

/-- Witness of C9: the assignments of test_r.cpp to a wrapper that holds the
`address_family_not_supported` error. -/
theorem r_assignment_replaces_state_witness :
    ((detail.r.of_error (make_error_code_errc address_family_not_supported) :
        detail.r test_type).assign_value ⟨42, 69⟩).v = Except.ok ⟨42, 69⟩ ∧
    ((detail.r.of_error (make_error_code_errc address_family_not_supported) :
        detail.r test_type).assign_error (make_error_code_errc address_in_use)).e
      = make_error_code_errc address_in_use :=
  have h := r_assignment_replaces_state
    (detail.r.of_error (make_error_code_errc address_family_not_supported) :
      detail.r test_type)
    ⟨42, 69⟩ (make_error_code_errc address_in_use) (by decide)
  ⟨h.2.1, h.2.2.2⟩

/-! ### Lemmas on the Timer -/

theorem int64_add_eq (a b : Int) (hlow : -9223372036854775808 ≤ a + b)
    (hhigh : a + b ≤ 9223372036854775807) : detail.Timer.int64_add a b = a + b := by
  unfold detail.Timer.int64_add
  omega

theorem emplace_mem {C : Type} (key : Int) (callback : C) (l : List (Int × C)) (x : Int × C) :
    x ∈ detail.Timer.emplace key callback l ↔ x = (key, callback) ∨ x ∈ l := by
  induction l with
  | nil => simp [detail.Timer.emplace]
  | cons y rest ih =>
      unfold detail.Timer.emplace
      split
      · simp
      · simp only [List.mem_cons, ih]
        tauto

theorem emplace_sorted {C : Type} (key : Int) (callback : C) (l : List (Int × C))
    (hl : l.Pairwise (fun a b => a.1 ≤ b.1)) :
    (detail.Timer.emplace key callback l).Pairwise (fun a b => a.1 ≤ b.1) := by
  induction l with
  | nil => simp [detail.Timer.emplace]
  | cons y rest ih =>
      rw [List.pairwise_cons] at hl
      unfold detail.Timer.emplace
      split
      · rename_i hlt
        refine List.pairwise_cons.2 ⟨?_, List.pairwise_cons.2 hl⟩
        intro z hz
        rcases List.mem_cons.1 hz with rfl | hz
        · exact le_of_lt hlt
        · exact le_trans (le_of_lt hlt) (hl.1 z hz)
      · rename_i hge
        refine List.pairwise_cons.2 ⟨?_, ih hl.2⟩
        intro z hz
        rcases (emplace_mem key callback rest z).1 hz with rfl | hz
        · exact not_lt.1 hge
        · exact hl.1 z hz

theorem expires_from_now_timeouts {C : Type} (now timeout : Int) (cb : C) (t : detail.Timer C) :
    (t.expires_from_now now timeout cb).timeouts_
      = detail.Timer.emplace (detail.Timer.int64_add now timeout) cb t.timeouts_ := by
  unfold detail.Timer.expires_from_now
  simp only
  split
  · split <;> rfl
  · rfl

theorem expires_from_now_sooner {C : Type} (now timeout : Int) (cb : C) (t : detail.Timer C)
    (h : t.sooner (detail.Timer.int64_add now timeout) = true) :
    (t.expires_from_now now timeout cb)._ioService.scheduled
      = [detail.Timer.int64_add now timeout] := by
  unfold detail.Timer.expires_from_now
  simp only [h, if_true]
  split <;> rfl

theorem expires_from_now_not_sooner {C : Type} (now timeout : Int) (cb : C)
    (t : detail.Timer C) (h : t.sooner (detail.Timer.int64_add now timeout) = false) :
    (t.expires_from_now now timeout cb)._ioService = t._ioService := by
  unfold detail.Timer.expires_from_now
  simp [h]

theorem expires_from_now_invariant {C : Type} (now timeout : Int) (cb : C)
    (t : detail.Timer C)
    (hsorted : t.timeouts_.Pairwise (fun a b => a.1 ≤ b.1))
    (harmed : t.armed = t.timeouts_.head?.map Prod.fst) :
    (t.expires_from_now now timeout cb).timeouts_.Pairwise (fun a b => a.1 ≤ b.1) ∧
    (t.expires_from_now now timeout cb).armed
      = (t.expires_from_now now timeout cb).timeouts_.head?.map Prod.fst := by
  refine ⟨?_, ?_⟩
  · rw [expires_from_now_timeouts]
    exact emplace_sorted _ _ _ hsorted
  · rw [expires_from_now_timeouts]
    cases hs : t.sooner (detail.Timer.int64_add now timeout) with
    | true =>
        have h1 := expires_from_now_sooner now timeout cb t hs
        unfold detail.Timer.armed
        rw [h1]
        cases hl : t.timeouts_ with
        | nil => simp [detail.Timer.emplace]
        | cons y rest =>
            have hlt : detail.Timer.int64_add now timeout < y.1 := by
              simpa [detail.Timer.sooner, hl] using hs
            simp [detail.Timer.emplace, hlt]
    | false =>
        have h1 := expires_from_now_not_sooner now timeout cb t hs
        unfold detail.Timer.armed at harmed ⊢
        rw [h1, harmed]
        cases hl : t.timeouts_ with
        | nil => simp [detail.Timer.sooner, hl] at hs
        | cons y rest =>
            have hge : ¬ detail.Timer.int64_add now timeout < y.1 := by
              simpa [detail.Timer.sooner, hl] using hs
            simp [detail.Timer.emplace, hge]

theorem foldl_expires_from_now_invariant {C : Type} (calls : List (Int × Int × C))
    (t : detail.Timer C)
    (hsorted : t.timeouts_.Pairwise (fun a b => a.1 ≤ b.1))
    (harmed : t.armed = t.timeouts_.head?.map Prod.fst) :
    (calls.foldl (fun t c => t.expires_from_now c.1 c.2.1 c.2.2) t).timeouts_.Pairwise
        (fun a b => a.1 ≤ b.1) ∧
    (calls.foldl (fun t c => t.expires_from_now c.1 c.2.1 c.2.2) t).armed
      = (calls.foldl (fun t c => t.expires_from_now c.1 c.2.1 c.2.2) t).timeouts_.head?.map
          Prod.fst := by
  induction calls generalizing t with
  | nil => exact ⟨hsorted, harmed⟩
  | cons c rest ih =>
      have h := expires_from_now_invariant c.1 c.2.1 c.2.2 t hsorted harmed
      exact ih _ h.1 h.2

theorem sooner_iff_before_all {C : Type} (expiration_time : Int) (t : detail.Timer C)
    (hsorted : t.timeouts_.Pairwise (fun a b => a.1 ≤ b.1)) :
    t.sooner expiration_time = true ↔ ∀ x ∈ t.timeouts_, expiration_time < x.1 := by
  cases hl : t.timeouts_ with
  | nil => simp [detail.Timer.sooner, hl]
  | cons y rest =>
      rw [hl, List.pairwise_cons] at hsorted
      simp only [detail.Timer.sooner, hl, decide_eq_true_eq, List.mem_cons, forall_eq_or_imp]
      constructor
      · intro h
        exact ⟨h, fun z hz => lt_of_lt_of_le h (hsorted.1 z hz)⟩
      · intro h
        exact h.1

/-- C10: in the state an empty Timer reaches by any sequence of
`expires_from_now` calls, the deadline most recently armed through
`schedule_next_tick` is the key of the first entry of `timeouts_`, which is
the earliest deadline stored there (no entry has an earlier one). A further
registration whose expiration time (the `int64` sum of clock reading and
timeout that the call computes) is strictly earlier than every stored
deadline (in particular when `timeouts_` is empty) arms its own expiration
time; any other registration leaves the reactor, hence the armed wake-up, as
it is. The expiration time is the exact sum when that sum is in the range of
`int64`. -/
theorem armed_deadline_is_earliest {C : Type} (calls : List (Int × Int × C))
    (now timeout : Int) (on_timer_expired : C) :
    (detail.Timer.after_calls calls).armed
      = (detail.Timer.after_calls calls).timeouts_.head?.map Prod.fst ∧
    (∀ d, (detail.Timer.after_calls calls).armed = some d →
      ∀ x ∈ (detail.Timer.after_calls calls).timeouts_, d ≤ x.1) ∧
    (calls ≠ [] → ∃ d callback, (detail.Timer.after_calls calls).armed = some d ∧
      (d, callback) ∈ (detail.Timer.after_calls calls).timeouts_) ∧
    ((∀ x ∈ (detail.Timer.after_calls calls).timeouts_,
        detail.Timer.int64_add now timeout < x.1) →
      ((detail.Timer.after_calls calls).expires_from_now now timeout on_timer_expired).armed
        = some (detail.Timer.int64_add now timeout)) ∧
    ((∃ x ∈ (detail.Timer.after_calls calls).timeouts_,
        x.1 ≤ detail.Timer.int64_add now timeout) →
      ((detail.Timer.after_calls calls).expires_from_now now timeout
          on_timer_expired)._ioService
        = (detail.Timer.after_calls calls)._ioService) ∧
    (-9223372036854775808 ≤ now + timeout → now + timeout ≤ 9223372036854775807 →
      detail.Timer.int64_add now timeout = now + timeout) := by
  have hinv := foldl_expires_from_now_invariant calls (detail.Timer.empty : detail.Timer C)
    (by simp [detail.Timer.empty]) (by simp [detail.Timer.empty, detail.Timer.armed])
  change (detail.Timer.after_calls calls).timeouts_.Pairwise (fun a b => a.1 ≤ b.1) ∧
    (detail.Timer.after_calls calls).armed
      = (detail.Timer.after_calls calls).timeouts_.head?.map Prod.fst at hinv
  obtain ⟨hsorted, harmed⟩ := hinv
  have hsooner := sooner_iff_before_all (detail.Timer.int64_add now timeout)
    (detail.Timer.after_calls calls) hsorted
  refine ⟨harmed, ?_, ?_, ?_, ?_, int64_add_eq now timeout⟩
  · intro d hd x hx
    rw [harmed] at hd
    cases hl : (detail.Timer.after_calls calls).timeouts_ with
    | nil => rw [hl] at hx; cases hx
    | cons y rest =>
        rw [hl] at hd hx hsorted
        simp only [List.head?_cons, Option.map_some', Option.some.injEq] at hd
        rw [List.pairwise_cons] at hsorted
        rcases List.mem_cons.1 hx with rfl | hx
        · exact le_of_eq hd.symm
        · rw [← hd]; exact hsorted.1 x hx
  · intro hne
    have hnonempty : (detail.Timer.after_calls calls).timeouts_ ≠ [] := by
      obtain ⟨init, last, rfl⟩ : ∃ init last, calls = init ++ [last] := by
        rcases List.eq_nil_or_concat calls with h | ⟨init, last, h⟩
        · exact absurd h hne
        · exact ⟨init, last, by simpa using h⟩
      intro hnil
      have hm : (detail.Timer.int64_add last.1 last.2.1, last.2.2)
          ∈ (detail.Timer.after_calls (init ++ [last])).timeouts_ := by
        simp only [detail.Timer.after_calls, List.foldl_append, List.foldl_cons, List.foldl_nil]
        rw [expires_from_now_timeouts]
        exact (emplace_mem _ _ _ _).2 (Or.inl rfl)
      rw [hnil] at hm
      cases hm
    cases hl : (detail.Timer.after_calls calls).timeouts_ with
    | nil => exact absurd hl hnonempty
    | cons y rest =>
        refine ⟨y.1, y.2, ?_, ?_⟩
        · rw [harmed, hl]; rfl
        · simp
  · intro hall
    have h1 := expires_from_now_sooner now timeout on_timer_expired _ (hsooner.2 hall)
    unfold detail.Timer.armed
    rw [h1]
    simp
  · rintro ⟨x, hx, hle⟩
    apply expires_from_now_not_sooner
    cases hs : (detail.Timer.after_calls calls).sooner (detail.Timer.int64_add now timeout) with
    | false => rfl
    | true => exact absurd (hsooner.1 hs x hx) (not_lt.2 hle)

/-- Witness of C10: delays 100, 50, 200 registered at clock reading 0 leave 50
armed; a registration of delay 20 then arms 20, and one of delay 70 changes
nothing in the reactor. At clock reading 1000, after a delay of 100, a delay
of 2^63 - 1 makes the sum wrap to a negative expiration time, which is
earlier than 1100 and is armed. -/
theorem armed_deadline_is_earliest_witness :
    (detail.Timer.after_calls [((0 : Int), (100 : Int), (1 : Nat)), (0, 50, 2),
        (0, 200, 3)]).armed = some 50 ∧
    ((detail.Timer.after_calls [((0 : Int), (100 : Int), (1 : Nat)), (0, 50, 2),
        (0, 200, 3)]).expires_from_now 0 20 4).armed = some 20 ∧
    ((detail.Timer.after_calls [((0 : Int), (100 : Int), (1 : Nat)), (0, 50, 2),
        (0, 200, 3)]).expires_from_now 0 70 4)._ioService
      = (detail.Timer.after_calls [((0 : Int), (100 : Int), (1 : Nat)), (0, 50, 2),
        (0, 200, 3)])._ioService ∧
    ((detail.Timer.after_calls [((1000 : Int), (100 : Int), (1 : Nat))]).expires_from_now
        1000 9223372036854775807 2).armed = some (-9223372036854774809) :=
  have h := armed_deadline_is_earliest [((0 : Int), (100 : Int), (1 : Nat)), (0, 50, 2),
    (0, 200, 3)] 0 20 4
  have h2 := armed_deadline_is_earliest [((0 : Int), (100 : Int), (1 : Nat)), (0, 50, 2),
    (0, 200, 3)] 0 70 4
  have h3 := armed_deadline_is_earliest [((1000 : Int), (100 : Int), (1 : Nat))] 1000
    9223372036854775807 2
  ⟨h.1.trans (by decide), (h.2.2.2.1 (by decide)).trans (by decide),
    h2.2.2.2.2.1 ⟨(50, 2), by decide, by decide⟩,
    (h3.2.2.2.1 (by decide)).trans (by decide)⟩

/-! ### The wake-ups registered with the reactor -/

theorem emplace_split {C : Type} (key : Int) (callback : C) (l : List (Int × C)) :
    ∃ l1 l2, l = l1 ++ l2 ∧ detail.Timer.emplace key callback l = l1 ++ (key, callback) :: l2 := by
  induction l with
  | nil => exact ⟨[], [], rfl, rfl⟩
  | cons y rest ih =>
      unfold detail.Timer.emplace
      split
      · exact ⟨[], y :: rest, rfl, rfl⟩
      · obtain ⟨l1, l2, h1, h2⟩ := ih
        refine ⟨y :: l1, l2, ?_, ?_⟩
        · rw [h1]; rfl
        · rw [h2]; rfl

theorem emplace_perm {C : Type} (key : Int) (callback : C) (l : List (Int × C)) :
    (detail.Timer.emplace key callback l).Perm (l ++ [(key, callback)]) := by
  obtain ⟨l1, l2, h1, h2⟩ := emplace_split key callback l
  rw [h2, h1, List.append_assoc]
  exact List.Perm.append_left l1 (List.perm_append_singleton (key, callback) l2).symm

theorem emplace_filter_other {C : Type} (key d : Int) (callback : C) (l : List (Int × C))
    (hd : key ≠ d) :
    (detail.Timer.emplace key callback l).filter (fun x => decide (x.1 = d))
      = l.filter (fun x => decide (x.1 = d)) := by
  obtain ⟨l1, l2, h1, h2⟩ := emplace_split key callback l
  rw [h2, h1]
  simp [List.filter_append, List.filter_cons, hd]

theorem emplace_filter_same {C : Type} (key : Int) (callback : C) (l : List (Int × C))
    (hl : l.Pairwise (fun a b => a.1 ≤ b.1)) :
    (detail.Timer.emplace key callback l).filter (fun x => decide (x.1 = key))
      = l.filter (fun x => decide (x.1 = key)) ++ [(key, callback)] := by
  induction l with
  | nil => simp [detail.Timer.emplace]
  | cons y rest ih =>
      rw [List.pairwise_cons] at hl
      unfold detail.Timer.emplace
      split
      · rename_i hlt
        have hy : ¬ y.1 = key := fun h => by omega
        have hrest : rest.filter (fun x => decide (x.1 = key)) = [] := by
          rw [List.filter_eq_nil_iff]
          intro z hz
          have := hl.1 z hz
          simp only [decide_eq_true_eq]
          omega
        simp [List.filter_cons, hy, hrest]
      · rw [List.filter_cons, ih hl.2, List.filter_cons]
        split <;> simp

theorem foldl_expires_from_now_order {C : Type} (calls : List (Int × Int × C))
    (t : detail.Timer C) (hsorted : t.timeouts_.Pairwise (fun a b => a.1 ≤ b.1)) (d : Int) :
    (calls.foldl (fun t c => t.expires_from_now c.1 c.2.1 c.2.2) t).timeouts_.filter
        (fun x => decide (x.1 = d))
      = t.timeouts_.filter (fun x => decide (x.1 = d))
        ++ (calls.map (fun c => (detail.Timer.int64_add c.1 c.2.1, c.2.2))).filter
            (fun x => decide (x.1 = d)) := by
  induction calls generalizing t with
  | nil => simp
  | cons c rest ih =>
      have hs : (t.expires_from_now c.1 c.2.1 c.2.2).timeouts_.Pairwise
          (fun a b => a.1 ≤ b.1) := by
        rw [expires_from_now_timeouts]
        exact emplace_sorted _ _ _ hsorted
      simp only [List.foldl_cons, List.map_cons]
      rw [ih _ hs, expires_from_now_timeouts]
      by_cases hd : detail.Timer.int64_add c.1 c.2.1 = d
      · subst hd
        rw [emplace_filter_same _ _ _ hsorted]
        simp [List.filter_cons]
      · rw [emplace_filter_other _ _ _ _ hd]
        simp [List.filter_cons, hd]

theorem foldl_expires_from_now_perm {C : Type} (calls : List (Int × Int × C))
    (t : detail.Timer C) :
    (calls.foldl (fun t c => t.expires_from_now c.1 c.2.1 c.2.2) t).timeouts_.Perm
      (t.timeouts_ ++ calls.map (fun c => (detail.Timer.int64_add c.1 c.2.1, c.2.2))) := by
  induction calls generalizing t with
  | nil => simp
  | cons c rest ih =>
      simp only [List.foldl_cons, List.map_cons]
      refine (ih _).trans ?_
      rw [expires_from_now_timeouts]
      have h := (emplace_perm (detail.Timer.int64_add c.1 c.2.1) c.2.2 t.timeouts_).append_right
        (rest.map (fun c => (detail.Timer.int64_add c.1 c.2.1, c.2.2)))
      simpa using h

/-- C12: after any sequence of `expires_from_now` calls on an empty Timer the
entries of `timeouts_` are in firing order: the deadlines are non-decreasing,
and for each deadline the entries that have it are in the order of their
registration. `timeouts_` holds exactly the registered entries (as many as
there were calls), each under the expiration time its call computed (the
`int64` sum of clock reading and timeout), and a further registration inserts
its one entry at some place of `timeouts_` and leaves the others in place.
Delays 100, 50, 200 registered in that order at one clock reading, with sums
in the range of `int64`, are held in the order 50, 100, 200. -/
theorem timeouts_in_firing_order {C : Type} (calls : List (Int × Int × C))
    (now timeout : Int) (on_timer_expired a b c : C) :
    (detail.Timer.after_calls calls).timeouts_.Pairwise (fun x y => x.1 ≤ y.1) ∧
    (∀ d : Int, (detail.Timer.after_calls calls).timeouts_.filter (fun x => decide (x.1 = d))
      = (calls.map (fun c => (detail.Timer.int64_add c.1 c.2.1, c.2.2))).filter
          (fun x => decide (x.1 = d))) ∧
    (detail.Timer.after_calls calls).timeouts_.Perm
      (calls.map (fun c => (detail.Timer.int64_add c.1 c.2.1, c.2.2))) ∧
    (detail.Timer.after_calls calls).timeouts_.length = calls.length ∧
    (∃ l1 l2, (detail.Timer.after_calls calls).timeouts_ = l1 ++ l2 ∧
      ((detail.Timer.after_calls calls).expires_from_now now timeout
          on_timer_expired).timeouts_
        = l1 ++ (detail.Timer.int64_add now timeout, on_timer_expired) :: l2) ∧
    (-9223372036854775808 ≤ now + 50 → now + 200 ≤ 9223372036854775807 →
      (detail.Timer.after_calls [(now, 100, a), (now, 50, b), (now, 200, c)]).timeouts_
        = [(now + 50, b), (now + 100, a), (now + 200, c)]) := by
  have hperm := foldl_expires_from_now_perm calls (detail.Timer.empty : detail.Timer C)
  have hperm2 : (detail.Timer.after_calls calls).timeouts_.Perm
      (calls.map (fun c => (detail.Timer.int64_add c.1 c.2.1, c.2.2))) := by
    simpa [detail.Timer.after_calls, detail.Timer.empty] using hperm
  refine ⟨?_, ?_, hperm2, ?_, ?_, ?_⟩
  · exact (foldl_expires_from_now_invariant calls (detail.Timer.empty : detail.Timer C)
      (by simp [detail.Timer.empty]) (by simp [detail.Timer.empty, detail.Timer.armed])).1
  · intro d
    have h := foldl_expires_from_now_order calls (detail.Timer.empty : detail.Timer C)
      (by simp [detail.Timer.empty]) d
    simpa [detail.Timer.after_calls, detail.Timer.empty] using h
  · simpa using hperm2.length_eq
  · rw [expires_from_now_timeouts]
    exact emplace_split _ _ _
  · intro hlow hhigh
    have h1 : detail.Timer.int64_add now 100 = now + 100 :=
      int64_add_eq now 100 (by omega) (by omega)
    have h2 : detail.Timer.int64_add now 50 = now + 50 :=
      int64_add_eq now 50 (by omega) (by omega)
    have h3 : detail.Timer.int64_add now 200 = now + 200 :=
      int64_add_eq now 200 (by omega) (by omega)
    simp [detail.Timer.after_calls, detail.Timer.empty, detail.Timer.expires_from_now,
      detail.Timer.sooner, detail.Timer.schedule_next_tick, detail.Timer.emplace,
      SocketReactor.scheduledCompletionHandlers, h1, h2, h3]

/-- Witness of C12: three registrations share the deadline 50 and one of
deadline 20 comes between them; the three are held in registration order,
after the entry of deadline 20. Delays 100, 50, 200 at clock reading 0 are
held in the order 50, 100, 200. -/
theorem timeouts_in_firing_order_witness :
    (detail.Timer.after_calls [((0 : Int), (50 : Int), (1 : Nat)), (0, 50, 2), (0, 20, 3),
        (0, 50, 4)]).timeouts_.filter (fun x => decide (x.1 = 50))
      = [(50, 1), (50, 2), (50, 4)] ∧
    (detail.Timer.after_calls [((0 : Int), (50 : Int), (1 : Nat)), (0, 50, 2), (0, 20, 3),
        (0, 50, 4)]).timeouts_.length = 4 ∧
    (detail.Timer.after_calls [((0 : Int), (100 : Int), (1 : Nat)), (0, 50, 2),
        (0, 200, 3)]).timeouts_ = [(0 + 50, 2), (0 + 100, 1), (0 + 200, 3)] :=
  have h := timeouts_in_firing_order [((0 : Int), (50 : Int), (1 : Nat)), (0, 50, 2),
    (0, 20, 3), (0, 50, 4)] 0 0 0 1 2 3
  ⟨(h.2.1 50).trans (by decide), h.2.2.2.1, h.2.2.2.2.2 (by decide) (by decide)⟩

/-- C13: `destroy_finished_tasks` leaves in `tasks_` the sub-sequence of the
unfinished tasks, in their order: what is left is a sub-sequence of the list
before, holds no finished task, and contains every sub-sequence of unfinished
tasks of the list before (so every unfinished task stays, as often as it
occurred); all other members of the object are untouched, and a second sweep
changes nothing. -/
theorem destroy_finished_tasks_sweeps_exactly_finished (s : impl D R) :
    s.destroy_finished_tasks.tasks_.Sublist s.tasks_ ∧
    (∀ t ∈ s.destroy_finished_tasks.tasks_, t.is_finished = false) ∧
    (∀ t ∈ s.tasks_, t.is_finished = false → t ∈ s.destroy_finished_tasks.tasks_) ∧
    (∀ t ∈ s.tasks_, t.is_finished = true → t ∉ s.destroy_finished_tasks.tasks_) ∧
    (∀ l : List detail.task_base, l.Sublist s.tasks_ → (∀ t ∈ l, t.is_finished = false) →
      l.Sublist s.destroy_finished_tasks.tasks_) ∧
    s.destroy_finished_tasks.destroy_finished_tasks = s.destroy_finished_tasks ∧
    s.destroy_finished_tasks = { s with tasks_ := s.destroy_finished_tasks.tasks_ } := by
  refine ⟨?_, ?_, ?_, ?_, ?_, ?_, rfl⟩
  · exact List.filter_sublist _
  · intro t ht
    have h := (List.mem_filter.1 ht).2
    simpa using h
  · intro t ht hf
    exact List.mem_filter.2 ⟨ht, by simp [hf]⟩
  · intro t _ hf hmem
    have h := (List.mem_filter.1 hmem).2
    simp [hf] at h
  · intro l hl hall
    have h := hl.filter (fun t : detail.task_base => !t.is_finished)
    have hself : l.filter (fun t : detail.task_base => !t.is_finished) = l := by
      rw [List.filter_eq_self]
      intro t ht
      simp [hall t ht]
    rw [hself] at h
    exact h
  · simp [impl.destroy_finished_tasks, List.filter_filter]

/-- Witness of C13: of four tasks, the second and the last finished, the sweep
keeps the first and the third. -/
theorem destroy_finished_tasks_sweeps_exactly_finished_witness :
    ({ sample_impl with tasks_ := [⟨1, false⟩, ⟨2, true⟩, ⟨3, false⟩, ⟨4, true⟩] } :
        impl (List (Nat × Nat)) Unit).destroy_finished_tasks.tasks_
      = [⟨1, false⟩, ⟨3, false⟩] :=
  have h := destroy_finished_tasks_sweeps_exactly_finished
    ({ sample_impl with tasks_ := [⟨1, false⟩, ⟨2, true⟩, ⟨3, false⟩, ⟨4, true⟩] } :
      impl (List (Nat × Nat)) Unit)
  (h.2.2.2.2.1 [⟨1, false⟩, ⟨3, false⟩] (by decide) (by decide)).antisymm
    (by decide)

end kademlia
